import Mathlib

/-!
Verification of the triangular-database storage engine against its
specification.  The development shallowly embeds the core of the source:

* the JSON data model (serde_json values, with objects as ordered
  association lists of string keys, matching the order-preserving map the
  server serializes and re-parses),
* the on-disk state as a map from paths to file contents, where a file is
  absent, unreadable, unparseable, or holds a parsed JSON document (writes
  are modelled as atomic whole-file replacement, the assumption the spec
  itself makes for the Document Store),
* the five container operations of the Container Manager (tree.rs) and the
  earlier object-layout command handlers plus the request dispatcher
  (api.rs), and
* the sequence of lock operations each handler performs on the Container
  Lock Registry.

The thread spawned and immediately joined inside every tree.rs handler is
the identity on the computed response, so handlers are plain functions of
the file-system state.  Serialization round-trips through pretty-printed
JSON, so file contents are modelled at the parsed-value level.
-/

/-- A serde_json value.  Numbers carry an integer payload; no claim under
verification distinguishes numeric values beyond being non-strings. -/
inductive Json where
  | null
  | bool (b : Bool)
  | num (n : Int)
  | str (s : String)
  | arr (elems : List Json)
  | obj (entries : List (String × Json))
deriving Repr

/-- First-match lookup in an object entry list: serde_json Map::get. -/
def lookupEntry : List (String × Json) → String → Option Json
  | [], _ => none
  | (k0, v) :: rest, k => if k0 = k then some v else lookupEntry rest k

/-- serde_json Map::insert: replace the value at an existing key in place,
otherwise append the new entry at the end. -/
def insertEntry : List (String × Json) → String → Json → List (String × Json)
  | [], k, v => [(k, v)]
  | (k0, v0) :: rest, k, v =>
      if k0 = k then (k, v) :: rest else (k0, v0) :: insertEntry rest k v

/-- serde_json Value::get on a string key: object lookup, none otherwise. -/
def Json.getKey : Json → String → Option Json
  | .obj kvs, k => lookupEntry kvs k
  | _, _ => none

/-- Rust value.as_str().unwrap_or("") as used by the Get handlers. -/
def asStrOrEmpty : Json → String
  | .str s => s
  | _ => ""

mutual
/-- tree.rs replace_placeholder: rebuild an object entry by entry into a
fresh map, substituting the value under every key equal to the literal id
marker and recursing into every other value; map over arrays; scalars pass
through. -/
def replacePlaceholder (v : String) : Json → Json
  | .obj kvs => .obj (rpEntries v [] kvs)
  | .arr xs => .arr (rpList v xs)
  | .null => .null
  | .bool b => .bool b
  | .num n => .num n
  | .str s => .str s

/-- The entry loop of replace_placeholder: sequential Map::insert into the
accumulator being built, exactly as the source inserts into new_obj. -/
def rpEntries (v : String) (acc : List (String × Json)) :
    List (String × Json) → List (String × Json)
  | [] => acc
  | (k, val) :: rest =>
      if k = "id" then rpEntries v (insertEntry acc k (Json.str v)) rest
      else rpEntries v (insertEntry acc k (replacePlaceholder v val)) rest

/-- The array loop of replace_placeholder. -/
def rpList (v : String) : List Json → List Json
  | [] => []
  | x :: xs => replacePlaceholder v x :: rpList v xs
end

/-- Contents of one on-disk file: unreadable (read_to_string fails), not
valid JSON, or a parsed JSON document. -/
inductive FileCt where
  | unreadable
  | badJson
  | val (j : Json)
deriving Repr

/-- The file-system state: some content per existing path, none if absent. -/
def Fs : Type := String → Option FileCt

/-- Atomic whole-file write, the Document Store contract the spec assumes. -/
def Fs.write (fs : Fs) (path : String) (j : Json) : Fs :=
  fun p => if p = path then some (.val j) else fs p

/-- The path of a container record file, tree/<container>.json. -/
def containerFile (c : String) : String := "tree/" ++ c ++ ".json"

/-- The record-identifier test of tree.rs:
obj.get("id").and_then(as_str) == Some(module). -/
def idMatches (kvs : List (String × Json)) (m : String) : Bool :=
  match lookupEntry kvs "id" with
  | some (Json.str s) => s == m
  | _ => false

/-- tree.rs handle_init, as a function of the file-system state.  The
boolean argument says whether the final fs::write succeeds; on failure the
state is unchanged (atomic write).  Serialization itself cannot fail on
the modelled values, so the format-error branch of the source is dead. -/
def handleInit (fs : Fs) (c v : String) (wok : Bool) : String × Fs :=
  match fs "tree.json" with
  | none => ("ERROR: Failed to read tree.json", fs)
  | some .unreadable => ("ERROR: Failed to read tree.json", fs)
  | some .badJson => ("ERROR: Failed to parse tree.json", fs)
  | some (.val treeData) =>
    match treeData.getKey c with
    | none => ("ERROR: Container not found in tree.json", fs)
    | some template =>
      let newContainer := replacePlaceholder v template
      let current : Json :=
        match fs (containerFile c) with
        | some (.val j) => j
        | _ => Json.arr []
      let pushed : Json :=
        match current with
        | Json.arr xs => Json.arr (xs ++ [newContainer])
        | other => other
      if wok then
        ("INIT " ++ v ++ " in Container \x27" ++ c ++ "\x27",
         fs.write (containerFile c) pushed)
      else
        ("ERROR: Failed to write container file", fs)

/-- The record-scan loop of tree.rs handle_set: find the first array item
that is an object whose id matches, insert the key there, and rebuild the
array; none when no item matches (the Module-not-found path). -/
def setInArray (m k v : String) : List Json → Option (List Json)
  | [] => none
  | item :: rest =>
    match item with
    | Json.obj kvs =>
        if idMatches kvs m then
          some (Json.obj (insertEntry kvs k (Json.str v)) :: rest)
        else
          match setInArray m k v rest with
          | some rest2 => some (Json.obj kvs :: rest2)
          | none => none
    | other =>
        match setInArray m k v rest with
        | some rest2 => some (other :: rest2)
        | none => none

/-- tree.rs handle_set.  The boolean argument is whether the fs::write of
the updated document succeeds; a parsed non-array document reaches the
same Module-not-found fallthrough as an array without a match. -/
def handleSet (fs : Fs) (c m k v : String) (wok : Bool) : String × Fs :=
  match fs (containerFile c) with
  | none => ("ERROR: Container does not exist", fs)
  | some .unreadable => ("ERROR: Failed to read container file", fs)
  | some .badJson => ("ERROR: Failed to parse container file", fs)
  | some (.val current) =>
    match current with
    | Json.arr xs =>
      match setInArray m k v xs with
      | some xs2 =>
        if wok then
          ("SET " ++ k ++ " " ++ v, fs.write (containerFile c) (Json.arr xs2))
        else ("ERROR: Failed to write container file", fs)
      | none => ("ERROR: Module not found", fs)
    | _ => ("ERROR: Module not found", fs)

/-- The record-scan loop of tree.rs handle_get: the first object whose id
matches is consulted, but when it lacks the key the loop keeps scanning
later items rather than stopping. -/
def getInArray (m k : String) : List Json → Option Json
  | [] => none
  | item :: rest =>
    match item with
    | Json.obj kvs =>
        if idMatches kvs m then
          match lookupEntry kvs k with
          | some v => some v
          | none => getInArray m k rest
        else getInArray m k rest
    | _ => getInArray m k rest

/-- tree.rs handle_get.  Every not-found outcome, a missing module
included, reaches the single Key-not-found fallthrough of the source. -/
def handleGet (fs : Fs) (c m k : String) : String :=
  match fs (containerFile c) with
  | none => "ERROR: Container does not exist"
  | some .unreadable => "ERROR: Failed to read container file"
  | some .badJson => "ERROR: Failed to parse container file"
  | some (.val current) =>
    match current with
    | Json.arr xs =>
      match getInArray m k xs with
      | some v => asStrOrEmpty v
      | none => "ERROR: Key not found"
    | _ => "ERROR: Key not found"

/-- The identifier projection of tree.rs handle_list_modules: array items
that are objects with a string id field, in array order. -/
def moduleIds : List Json → List String
  | [] => []
  | Json.obj kvs :: rest =>
      match lookupEntry kvs "id" with
      | some (Json.str s) => s :: moduleIds rest
      | _ => moduleIds rest
  | _ :: rest => moduleIds rest

/-- tree.rs handle_list_modules. -/
def handleListModules (fs : Fs) (c : String) : String :=
  match fs (containerFile c) with
  | none => "ERROR: Container does not exist"
  | some .unreadable => "ERROR: Failed to read container file"
  | some .badJson => "ERROR: Failed to parse container file"
  | some (.val current) =>
    match current with
    | Json.arr xs => String.intercalate ", " (moduleIds xs)
    | _ => "ERROR: Invalid container format"

/-- Keys of a record other than the identifier field, in entry order. -/
def keysExceptId (kvs : List (String × Json)) : List String :=
  (kvs.map Prod.fst).filter (fun s => s != "id")

/-- The record-scan loop of tree.rs handle_list_keys: keys of the first
object whose id matches. -/
def keysOfFirst (m : String) : List Json → Option (List String)
  | [] => none
  | Json.obj kvs :: rest =>
      if idMatches kvs m then some (keysExceptId kvs) else keysOfFirst m rest
  | _ :: rest => keysOfFirst m rest

/-- tree.rs handle_list_keys. -/
def handleListKeys (fs : Fs) (c m : String) : String :=
  match fs (containerFile c) with
  | none => "ERROR: Container does not exist"
  | some .unreadable => "ERROR: Failed to read container file"
  | some .badJson => "ERROR: Failed to parse container file"
  | some (.val current) =>
    match current with
    | Json.arr xs =>
      match keysOfFirst m xs with
      | some ks => String.intercalate ", " ks
      | none => "ERROR: Module not found"
    | _ => "ERROR: Module not found"

namespace Api

mutual
/-- api.rs process_template: rebuild an object entry by entry into a fresh
map, renaming every key equal to the literal module marker to the
replacement value and recursing into every value; map over arrays; scalars
pass through.  The Err branch of the source is never taken. -/
def processTemplate (v : String) : Json → Json
  | .obj kvs => .obj (ptEntries v [] kvs)
  | .arr xs => .arr (ptList v xs)
  | .null => .null
  | .bool b => .bool b
  | .num n => .num n
  | .str s => .str s

/-- The entry loop of process_template: sequential Map::insert into the
map being built, with the marker key renamed to the replacement value. -/
def ptEntries (v : String) (acc : List (String × Json)) :
    List (String × Json) → List (String × Json)
  | [] => acc
  | (k, val) :: rest =>
      if k = "module" then ptEntries v (insertEntry acc v (processTemplate v val)) rest
      else ptEntries v (insertEntry acc k (processTemplate v val)) rest

/-- The array loop of process_template. -/
def ptList (v : String) : List Json → List Json
  | [] => []
  | x :: xs => processTemplate v x :: ptList v xs
end

/-- Stand-in rendering of an io read failure on tree.json; the concrete
text of the Box dyn Error display is environment dependent and no claim
depends on it. -/
def readTreeErr : String := "failed to read tree.json"

/-- Stand-in rendering of a serde parse failure on tree.json. -/
def parseTreeErr : String := "failed to parse tree.json"

/-- Stand-in rendering of an io read failure on a container file. -/
def readContainerErr (c : String) : String :=
  "failed to read " ++ containerFile c

/-- Stand-in rendering of a serde parse failure on a container file. -/
def parseContainerErr (c : String) : String :=
  "failed to parse " ++ containerFile c

/-- Stand-in rendering of an io write failure on a container file. -/
def writeContainerErr (c : String) : String :=
  "failed to write " ++ containerFile c

/-- api.rs handle_init_command: find the template in tree.json, process it
with the value, and overwrite the container file with the single processed
record. -/
def handleInitCommand (fs : Fs) (c v : String) (wok : Bool) :
    Except String String × Fs :=
  match fs "tree.json" with
  | none => (.error readTreeErr, fs)
  | some .unreadable => (.error readTreeErr, fs)
  | some .badJson => (.error parseTreeErr, fs)
  | some (.val treeData) =>
    match treeData with
    | Json.obj rootMap =>
      match lookupEntry rootMap c with
      | some template =>
        if wok then
          (.ok ("INIT " ++ v ++ " in Container \x27" ++ c ++ "\x27"),
           fs.write (containerFile c) (processTemplate v template))
        else (.error (writeContainerErr c), fs)
      | none =>
        (.error ("Container \x27" ++ c ++ "\x27 not found in tree.json"), fs)
    | _ => (.error "Invalid tree.json format", fs)

/-- The schema validation prologue of api.rs handle_set_command.  A
tree.json root that is not an object skips validation entirely, as the
source if-let with no else does. -/
def setKeyValidation (treeData : Json) (c k : String) : Option String :=
  match treeData with
  | Json.obj rootMap =>
    match lookupEntry rootMap c with
    | some (Json.obj containerObj) =>
      match lookupEntry containerObj "module" with
      | some (Json.obj moduleObj) =>
        match lookupEntry moduleObj k with
        | some _ => none
        | none => some ("Key \x27" ++ k ++ "\x27 not defined in tree.json for container \x27" ++ c ++ "\x27")
      | _ => some ("Module structure not found in tree.json for container \x27" ++ c ++ "\x27")
    | _ => some ("Container \x27" ++ c ++ "\x27 not found in tree.json")
  | _ => none

/-- api.rs handle_set_command on the object container layout.  A container
document that is not an object is written back unchanged with a success
response, as the source if-let with no else does. -/
def handleSetCommand (fs : Fs) (c m k v : String) (wok : Bool) :
    Except String String × Fs :=
  match fs "tree.json" with
  | none => (.error readTreeErr, fs)
  | some .unreadable => (.error readTreeErr, fs)
  | some .badJson => (.error parseTreeErr, fs)
  | some (.val treeData) =>
    match setKeyValidation treeData c k with
    | some e => (.error e, fs)
    | none =>
      match fs (containerFile c) with
      | none => (.error ("Container file \x27" ++ containerFile c ++ "\x27 does not exist"), fs)
      | some .unreadable => (.error (readContainerErr c), fs)
      | some .badJson => (.error (parseContainerErr c), fs)
      | some (.val containerData) =>
        match containerData with
        | Json.obj rootMap =>
          match lookupEntry rootMap m with
          | some (Json.obj moduleObj) =>
            if wok then
              (.ok ("SET " ++ k ++ " " ++ v),
               fs.write (containerFile c)
                 (Json.obj (insertEntry rootMap m
                   (Json.obj (insertEntry moduleObj k (Json.str v))))))
            else (.error (writeContainerErr c), fs)
          | _ => (.error ("Module \x27" ++ m ++ "\x27 not found in container \x27" ++ c ++ "\x27"), fs)
        | other =>
          if wok then (.ok ("SET " ++ k ++ " " ++ v), fs.write (containerFile c) other)
          else (.error (writeContainerErr c), fs)

/-- api.rs handle_get_command on the object container layout. -/
def handleGetCommand (fs : Fs) (c m k : String) : Except String String :=
  match fs (containerFile c) with
  | none => .error ("Container file \x27" ++ containerFile c ++ "\x27 does not exist")
  | some .unreadable => .error (readContainerErr c)
  | some .badJson => .error (parseContainerErr c)
  | some (.val containerData) =>
    match containerData with
    | Json.obj rootMap =>
      match lookupEntry rootMap m with
      | some (Json.obj moduleObj) =>
        match lookupEntry moduleObj k with
        | some v => .ok (asStrOrEmpty v)
        | none => .error ("Key \x27" ++ k ++ "\x27 not found in module \x27" ++ m ++ "\x27 of container \x27" ++ c ++ "\x27")
      | _ => .error ("Module \x27" ++ m ++ "\x27 not found in container \x27" ++ c ++ "\x27")
    | _ => .error "Invalid container file format"

/-- api.rs handle_containers_command: keys of the tree.json root. -/
def handleContainersCommand (fs : Fs) : Except String String :=
  match fs "tree.json" with
  | none => .error readTreeErr
  | some .unreadable => .error readTreeErr
  | some .badJson => .error parseTreeErr
  | some (.val treeData) =>
    match treeData with
    | Json.obj rootMap => .ok (String.intercalate ", " (rootMap.map Prod.fst))
    | _ => .error "Invalid tree.json format"

/-- api.rs handle_modules_command: keys of the container document root. -/
def handleModulesCommand (fs : Fs) (c : String) : Except String String :=
  match fs (containerFile c) with
  | none => .error ("Container file \x27" ++ containerFile c ++ "\x27 does not exist")
  | some .unreadable => .error (readContainerErr c)
  | some .badJson => .error (parseContainerErr c)
  | some (.val containerData) =>
    match containerData with
    | Json.obj rootMap => .ok (String.intercalate ", " (rootMap.map Prod.fst))
    | _ => .error "Invalid container file format"

/-- api.rs handle_keys_command: keys of the named module object. -/
def handleKeysCommand (fs : Fs) (c m : String) : Except String String :=
  match fs (containerFile c) with
  | none => .error ("Container file \x27" ++ containerFile c ++ "\x27 does not exist")
  | some .unreadable => .error (readContainerErr c)
  | some .badJson => .error (parseContainerErr c)
  | some (.val containerData) =>
    match containerData with
    | Json.obj rootMap =>
      match lookupEntry rootMap m with
      | some (Json.obj moduleObj) => .ok (String.intercalate ", " (moduleObj.map Prod.fst))
      | _ => .error ("Module \x27" ++ m ++ "\x27 not found in container \x27" ++ c ++ "\x27")
    | _ => .error "Invalid container file format"

/-- The token scanner under tokenize: skip whitespace, collect maximal
runs of non-whitespace characters. -/
def wsTokens (cs : List Char) (cur : List Char) : List String :=
  match cs with
  | [] => if cur.isEmpty then [] else [String.mk cur.reverse]
  | c :: rest =>
    if c.isWhitespace then
      if cur.isEmpty then wsTokens rest []
      else String.mk cur.reverse :: wsTokens rest []
    else wsTokens rest (c :: cur)

/-- Rust request.trim().split_whitespace(): whitespace-separated tokens
with empty pieces discarded. -/
def tokenize (req : String) : List String := wsTokens req.data []

/-- Rust str::to_uppercase on the ASCII command tokens of the protocol. -/
def upperStr (s : String) : String := String.mk (s.data.map Char.toUpper)

/-- Render a command outcome as process_request does: the Ok payload
verbatim, or the error display behind the Error: prefix. -/
def renderE (r : Except String String) : String :=
  match r with
  | .ok msg => msg
  | .error e => "Error: " ++ e

/-- api.rs process_request: tokenize, uppercase the first token, dispatch
on INIT, SET, GET, CONTAINERS, MODULES and KEYS with arity checks, and
report every other first token as an unknown command. -/
def processRequest (fs : Fs) (wok : Bool) (req : String) : String × Fs :=
  match tokenize req with
  | [] => ("Error: Empty command", fs)
  | cmd0 :: args =>
    let command := upperStr cmd0
    if command = "INIT" then
      match args with
      | container :: value :: _ =>
        match handleInitCommand fs container value wok with
        | (r, fs2) => (renderE r, fs2)
      | _ => ("Error: INIT requires container and value", fs)
    else if command = "SET" then
      match args with
      | container :: module0 :: key :: value :: _ =>
        match handleSetCommand fs container module0 key value wok with
        | (r, fs2) => (renderE r, fs2)
      | _ => ("Error: SET requires container, module, key, and value", fs)
    else if command = "GET" then
      match args with
      | container :: module0 :: key :: _ =>
        (renderE (handleGetCommand fs container module0 key), fs)
      | _ => ("Error: GET requires container, module, and key", fs)
    else if command = "CONTAINERS" then
      (renderE (handleContainersCommand fs), fs)
    else if command = "MODULES" then
      match args with
      | container :: _ => (renderE (handleModulesCommand fs container), fs)
      | _ => ("Error: MODULES requires container", fs)
    else if command = "KEYS" then
      match args with
      | container :: module0 :: _ =>
        (renderE (handleKeysCommand fs container module0), fs)
      | _ => ("Error: KEYS requires container and module", fs)
    else ("Unknown command: " ++ command, fs)

end Api

/-- One synchronization action on the Container Lock Registry or on a
per-container lock. -/
inductive LockOp where
  | registryAcquire
  | registryRelease
  | containerAcquire (c : String)
  | containerRelease (c : String)
deriving Repr, DecidableEq

/-- tree.rs get_container_lock: lock the registry map, insert the entry if
missing, clone the Arc, and release the registry lock on drop.  The
per-container mutex itself is not touched. -/
def getContainerLockOps (_c : String) : List LockOp :=
  [LockOp.registryAcquire, LockOp.registryRelease]

/-- Lock operations of tree.rs handle_init: the handler binds the Arc
returned by get_container_lock and performs its file operations without
ever calling lock() on it, so only the registry operations appear. -/
def handleInitLockOps (c : String) : List LockOp := getContainerLockOps c

/-- Lock operations of tree.rs handle_set; same shape as handle_init. -/
def handleSetLockOps (c : String) : List LockOp := getContainerLockOps c

/-- Lock operations of tree.rs handle_get; same shape as handle_init. -/
def handleGetLockOps (c : String) : List LockOp := getContainerLockOps c

/-- Lock operations of tree.rs handle_list_modules; same shape. -/
def handleListModulesLockOps (c : String) : List LockOp := getContainerLockOps c

/-- Lock operations of tree.rs handle_list_keys; same shape. -/
def handleListKeysLockOps (c : String) : List LockOp := getContainerLockOps c

/-- Character-list prefix test used to classify responses. -/
def beginsWith : List Char → List Char → Bool
  | [], _ => true
  | _ :: _, [] => false
  | p :: ps, c :: cs => p == c && beginsWith ps cs

/-- A response that reports an error in the tree.rs rendering: it starts
with the upper-case marker ERROR followed by a colon. -/
def beginsUpperError (r : String) : Bool :=
  beginsWith ("ERROR:".data) r.data

/-- A response that reports an error in either rendering the system uses,
ERROR: from tree.rs or Error: from api.rs. -/
def beginsError (r : String) : Bool :=
  beginsWith ("ERROR:".data) r.data || beginsWith ("Error:".data) r.data

/-- Keys of an object entry list, in entry order. -/
def keysOf (kvs : List (String × Json)) : List String := kvs.map Prod.fst

/-- Whether an entry list contains a key, phrased through Map::get. -/
def keyMem (k : String) (kvs : List (String × Json)) : Bool :=
  (lookupEntry kvs k).isSome

/-- No two entries of the list share a key; parsed JSON objects always
satisfy this, since serde keeps one value per key. -/
def nodupKeysB : List (String × Json) → Bool
  | [] => true
  | (k, _) :: rest => !(keyMem k rest) && nodupKeysB rest

mutual
/-- Well-formed parsed JSON: every object, at every depth, has pairwise
distinct keys.  Every document produced by parsing satisfies this. -/
def wfJson : Json → Bool
  | .obj kvs => nodupKeysB kvs && wfEntries kvs
  | .arr xs => wfList xs
  | _ => true

/-- wfJson over the values of an entry list. -/
def wfEntries : List (String × Json) → Bool
  | [] => true
  | (_, val) :: rest => wfJson val && wfEntries rest

/-- wfJson over a list of values. -/
def wfList : List Json → Bool
  | [] => true
  | x :: xs => wfJson x && wfList xs
end

mutual
/-- Erase every entry under the id marker key, at every depth: the part of
a template the substitution claim requires to be left unchanged. -/
def stripId : Json → Json
  | .obj kvs => .obj (stripIdEntries kvs)
  | .arr xs => .arr (stripIdList xs)
  | .null => .null
  | .bool b => .bool b
  | .num n => .num n
  | .str s => .str s

/-- stripId over an entry list. -/
def stripIdEntries : List (String × Json) → List (String × Json)
  | [] => []
  | (k, val) :: rest =>
      if k = "id" then stripIdEntries rest
      else (k, stripId val) :: stripIdEntries rest

/-- stripId over a list of values. -/
def stripIdList : List Json → List Json
  | [] => []
  | x :: xs => stripId x :: stripIdList xs
end

mutual
/-- Every entry under the id marker key, at every depth, holds exactly the
given string: every marker occurrence has been replaced by it. -/
def idsAll (v : String) : Json → Bool
  | .obj kvs => idsAllEntries v kvs
  | .arr xs => idsAllList v xs
  | _ => true

/-- idsAll over an entry list. -/
def idsAllEntries (v : String) : List (String × Json) → Bool
  | [] => true
  | (k, val) :: rest =>
      (if k = "id" then
        match val with
        | Json.str s => s == v
        | _ => false
      else idsAll v val) && idsAllEntries v rest

/-- idsAll over a list of values. -/
def idsAllList (v : String) : List Json → Bool
  | [] => true
  | x :: xs => idsAll v x && idsAllList v xs
end

mutual
/-- Whether the id marker key occurs anywhere in the document. -/
def hasIdKey : Json → Bool
  | .obj kvs => hasIdKeyEntries kvs
  | .arr xs => hasIdKeyList xs
  | _ => false

/-- hasIdKey over an entry list. -/
def hasIdKeyEntries : List (String × Json) → Bool
  | [] => false
  | (k, val) :: rest => k == "id" || hasIdKey val || hasIdKeyEntries rest

/-- hasIdKey over a list of values. -/
def hasIdKeyList : List Json → Bool
  | [] => false
  | x :: xs => hasIdKey x || hasIdKeyList xs
end

mutual
/-- Whether the module marker key occurs anywhere in the document. -/
def hasModuleKey : Json → Bool
  | .obj kvs => hasModuleKeyEntries kvs
  | .arr xs => hasModuleKeyList xs
  | _ => false

/-- hasModuleKey over an entry list. -/
def hasModuleKeyEntries : List (String × Json) → Bool
  | [] => false
  | (k, val) :: rest => k == "module" || hasModuleKey val || hasModuleKeyEntries rest

/-- hasModuleKey over a list of values. -/
def hasModuleKeyList : List Json → Bool
  | [] => false
  | x :: xs => hasModuleKey x || hasModuleKeyList xs
end

mutual
/-- The scalar leaves of a document, in depth-first order. -/
def scalarsOf : Json → List Json
  | .obj kvs => scalarsOfEntries kvs
  | .arr xs => scalarsOfList xs
  | .null => [Json.null]
  | .bool b => [Json.bool b]
  | .num n => [Json.num n]
  | .str s => [Json.str s]

/-- scalarsOf over an entry list. -/
def scalarsOfEntries : List (String × Json) → List Json
  | [] => []
  | (_, val) :: rest => scalarsOf val ++ scalarsOfEntries rest

/-- scalarsOf over a list of values. -/
def scalarsOfList : List Json → List Json
  | [] => []
  | x :: xs => scalarsOf x ++ scalarsOfList xs
end

mutual
/-- Whether some object in the document holds both the module marker key
and the replacement value as keys, so that renaming the marker would
collide with the existing key. -/
def collides (v : String) : Json → Bool
  | .obj kvs => (keyMem "module" kvs && keyMem v kvs) || collidesEntries v kvs
  | .arr xs => collidesList v xs
  | _ => false

/-- collides over the values of an entry list. -/
def collidesEntries (v : String) : List (String × Json) → Bool
  | [] => false
  | (_, val) :: rest => collides v val || collidesEntries v rest

/-- collides over a list of values. -/
def collidesList (v : String) : List Json → Bool
  | [] => false
  | x :: xs => collides v x || collidesList v xs
end

/-- The entry map that replace_placeholder computes on an object with
pairwise distinct keys: marker values substituted, other values recursed,
keys and order untouched. -/
def rpMapEntries (v : String) : List (String × Json) → List (String × Json)
  | [] => []
  | (k, val) :: rest =>
      (k, if k = "id" then Json.str v else replacePlaceholder v val) :: rpMapEntries v rest

/-- The entry map that process_template computes on a collision-free
object: the marker key renamed, every value recursed. -/
def ptMapEntries (v : String) : List (String × Json) → List (String × Json)
  | [] => []
  | (k, val) :: rest =>
      (if k = "module" then v else k, Api.processTemplate v val) :: ptMapEntries v rest

mutual
/-- Plain recursive key renaming of the module marker, the spec-level
description of the key-substitution variant of template instantiation. -/
def renameKey (v : String) : Json → Json
  | .obj kvs => .obj (renameKeyEntries v kvs)
  | .arr xs => .arr (renameKeyList v xs)
  | .null => .null
  | .bool b => .bool b
  | .num n => .num n
  | .str s => .str s

/-- renameKey over an entry list. -/
def renameKeyEntries (v : String) : List (String × Json) → List (String × Json)
  | [] => []
  | (k, val) :: rest =>
      (if k = "module" then v else k, renameKey v val) :: renameKeyEntries v rest

/-- renameKey over a list of values. -/
def renameKeyList (v : String) : List Json → List Json
  | [] => []
  | x :: xs => renameKey v x :: renameKeyList v xs
end

/-- The matching test Set and ListKeys apply to an array item. -/
def recMatches (j : Json) (m : String) : Bool :=
  match j with
  | Json.obj kvs => idMatches kvs m
  | _ => false

/-- The test under which Get stops at an array item: the identifier
matches and the requested key is present. -/
def getMatches (j : Json) (m k : String) : Bool :=
  match j with
  | Json.obj kvs => idMatches kvs m && keyMem k kvs
  | _ => false

/-- An empty file system. -/
def fsEmpty : Fs := fun _ => none

/-- A schema document with one container whose template carries a
top-level id marker. -/
def schemaA : Json :=
  Json.obj [("c", Json.obj [("id", Json.str ""), ("email", Json.str "")])]

/-- A state holding only the schema document. -/
def fsSchemaA : Fs :=
  fun p => if p = "tree.json" then some (.val schemaA) else none

/-- A state whose container file holds two records with the same
identifier, the first lacking the key the second carries. -/
def fsDup : Fs :=
  fun p =>
    if p = containerFile "c" then
      some (.val (Json.arr [Json.obj [("id", Json.str "m")],
                            Json.obj [("id", Json.str "m"), ("k", Json.str "v")]]))
    else none

/-- A state whose container file holds an empty record array. -/
def fsEmptyArr : Fs :=
  fun p => if p = containerFile "c" then some (.val (Json.arr [])) else none

/-- A state where the schema knows container c but the container file
holds a valid JSON object rather than an array. -/
def fsNonArr : Fs :=
  fun p =>
    if p = "tree.json" then some (.val schemaA)
    else if p = containerFile "c" then
      some (.val (Json.obj [("x", Json.str "y")]))
    else none

/-- A state whose users container file holds one module in the object
layout that api.rs serves. -/
def fsUsers : Fs :=
  fun p =>
    if p = containerFile "users" then
      some (.val (Json.obj [("alice", Json.obj [])]))
    else none

/-- A state whose container file holds a single record with identifier m
and no other field. -/
def fsOneRec : Fs :=
  fun p =>
    if p = containerFile "c" then
      some (.val (Json.arr [Json.obj [("id", Json.str "m")]]))
    else none

/-- The six first tokens that process_request dispatches on, after
uppercasing. -/
def knownUpper (u : String) : Bool :=
  u == "INIT" || u == "SET" || u == "GET" ||
  u == "CONTAINERS" || u == "MODULES" || u == "KEYS"

/-- Key membership unfolded one entry. -/
theorem keyMem_cons (k k0 : String) (v0 : Json) (rest : List (String × Json)) :
    keyMem k ((k0, v0) :: rest) = (if k0 = k then true else keyMem k rest) := by
  by_cases h : k0 = k <;> simp [keyMem, lookupEntry, h]

/-- Looking up the key just inserted yields the inserted value. -/
theorem lookupEntry_insertEntry_self (l : List (String × Json)) (k : String) (v : Json) :
    lookupEntry (insertEntry l k v) k = some v := by
  induction l with
  | nil => simp [insertEntry, lookupEntry]
  | cons e rest ih =>
    obtain ⟨k0, v0⟩ := e
    by_cases h : k0 = k
    · simp [insertEntry, h, lookupEntry]
    · simp [insertEntry, h, lookupEntry, ih]

/-- Inserting one key leaves lookups of every other key unchanged. -/
theorem lookupEntry_insertEntry_ne (l : List (String × Json)) (k k2 : String) (v : Json)
    (h : k2 ≠ k) : lookupEntry (insertEntry l k v) k2 = lookupEntry l k2 := by
  have hkk : ¬(k = k2) := fun hh => h hh.symm
  induction l with
  | nil => simp [insertEntry, lookupEntry, hkk]
  | cons e rest ih =>
    obtain ⟨k0, v0⟩ := e
    by_cases h0 : k0 = k
    · subst h0
      simp [insertEntry, lookupEntry, hkk]
    · by_cases h2 : k0 = k2
      · simp [insertEntry, h0, lookupEntry, h2, h]
      · simp [insertEntry, h0, lookupEntry, h2, ih]

/-- Inserting a key absent from the list appends the entry at the end. -/
theorem insertEntry_fresh (l : List (String × Json)) (k : String) (v : Json)
    (h : keyMem k l = false) : insertEntry l k v = l ++ [(k, v)] := by
  induction l with
  | nil => simp [insertEntry]
  | cons e rest ih =>
    obtain ⟨k0, v0⟩ := e
    rw [keyMem_cons] at h
    by_cases h0 : k0 = k
    · rw [if_pos h0] at h
      exact absurd h (by simp)
    · rw [if_neg h0] at h
      simp [insertEntry, h0, ih h]

/-- The key projection of a nonempty entry list. -/
theorem keysOf_cons (k0 : String) (v0 : Json) (rest : List (String × Json)) :
    keysOf ((k0, v0) :: rest) = k0 :: keysOf rest := rfl

/-- Key membership agrees with membership in the key projection. -/
theorem keyMem_iff_mem_keysOf (k : String) :
    ∀ l : List (String × Json), keyMem k l = true ↔ k ∈ keysOf l := by
  intro l
  induction l with
  | nil => simp [keyMem, lookupEntry, keysOf]
  | cons e rest ih =>
    obtain ⟨k0, v0⟩ := e
    rw [keyMem_cons, keysOf_cons, List.mem_cons]
    by_cases h0 : k0 = k
    · simp [h0]
    · rw [if_neg h0]
      constructor
      · intro hm
        exact Or.inr (ih.mp hm)
      · intro hm
        cases hm with
        | inl hh => exact absurd hh.symm h0
        | inr hh => exact ih.mpr hh

/-- Pairwise distinct keys in the Boolean sense give a Nodup projection. -/
theorem nodup_keysOf_of_nodupKeysB :
    ∀ l : List (String × Json), nodupKeysB l = true → (keysOf l).Nodup := by
  intro l
  induction l with
  | nil => simp [keysOf]
  | cons e rest ih =>
    obtain ⟨k0, v0⟩ := e
    intro h
    simp [nodupKeysB, Bool.and_eq_true] at h
    obtain ⟨hfree, hrest⟩ := h
    have hnm : k0 ∉ keysOf rest := by
      intro hm
      rw [← keyMem_iff_mem_keysOf] at hm
      rw [hm] at hfree
      simp at hfree
    have : keysOf ((k0, v0) :: rest) = k0 :: keysOf rest := by simp [keysOf]
    rw [this]
    exact List.nodup_cons.mpr ⟨hnm, ih hrest⟩

/-- C4: the claim reads that operations naming the same container are
mutually exclusive past lock acquisition.  The handlers only fetch the
Arc from the registry and never call lock() on the per-container mutex,
so no handler trace contains a container-lock acquisition at all: the
claimed mutual exclusion is the intent (the source comments say the file
operations run with proper locking) but is not implemented. -/
theorem c4_no_container_lock_acquired (c : String) :
    LockOp.containerAcquire c ∉ handleInitLockOps c ∧
    LockOp.containerAcquire c ∉ handleSetLockOps c ∧
    LockOp.containerAcquire c ∉ handleGetLockOps c ∧
    LockOp.containerAcquire c ∉ handleListModulesLockOps c ∧
    LockOp.containerAcquire c ∉ handleListKeysLockOps c := by
  simp [handleInitLockOps, handleSetLockOps, handleGetLockOps,
        handleListModulesLockOps, handleListKeysLockOps, getContainerLockOps]

/-- C10: on a container file holding valid JSON that is not an array,
Init reports success while appending nothing: the non-array document is
written back exactly as it was. -/
theorem c10_init_nonarray_silent_success :
    (handleInit fsNonArr "c" "v" true).1 = "INIT v in Container \x27c\x27"
    ∧ (handleInit fsNonArr "c" "v" true).2 (containerFile "c")
        = fsNonArr (containerFile "c")
    ∧ fsNonArr (containerFile "c")
        = some (FileCt.val (Json.obj [("x", Json.str "y")])) :=
  ⟨rfl, rfl, rfl⟩

/-- A scan with no item matching both the identifier and the key finds
nothing. -/
theorem getInArray_eq_none (m k : String) :
    ∀ xs : List Json, (∀ j ∈ xs, getMatches j m k = false) →
      getInArray m k xs = none := by
  intro xs
  induction xs with
  | nil => intro _; rfl
  | cons item rest ih =>
    intro h
    have hitem := h item (by simp)
    have hrest : ∀ j ∈ rest, getMatches j m k = false :=
      fun j hj => h j (by simp [hj])
    match item with
    | Json.null | Json.bool _ | Json.num _ | Json.str _ | Json.arr _ =>
      simp [getInArray, ih hrest]
    | Json.obj kvs =>
      by_cases hid : idMatches kvs m
      · simp [getMatches, hid, keyMem] at hitem
        simp [getInArray, hid, hitem, ih hrest]
      · simp [getInArray, hid, ih hrest]

/-- The scan of handle_get returns the value of the first item that both
matches the identifier and carries the key. -/
theorem getInArray_first_match (m k : String) :
    ∀ (pre : List Json) (kvs : List (String × Json)) (post : List Json) (w : Json),
      (∀ j ∈ pre, getMatches j m k = false) →
      idMatches kvs m = true → lookupEntry kvs k = some w →
      getInArray m k (pre ++ Json.obj kvs :: post) = some w := by
  intro pre
  induction pre with
  | nil =>
    intro kvs post w _ hid hk
    simp [getInArray, hid, hk]
  | cons item rest ih =>
    intro kvs post w hpre hid hk
    have hitem := hpre item (by simp)
    have hrest : ∀ j ∈ rest, getMatches j m k = false :=
      fun j hj => hpre j (by simp [hj])
    match item with
    | Json.null | Json.bool _ | Json.num _ | Json.str _ | Json.arr _ =>
      simp [getInArray]
      exact ih kvs post w hrest hid hk
    | Json.obj kvs0 =>
      by_cases hid0 : idMatches kvs0 m
      · simp [getMatches, hid0, keyMem] at hitem
        simp [getInArray, hid0, hitem]
        exact ih kvs post w hrest hid hk
      · simp [getInArray, hid0]
        exact ih kvs post w hrest hid hk

/-- C5: corrected.  On an existing container file holding an array, Get
does not distinguish a missing module from a missing key: when no record
both matches the identifier and carries the key, including when no record
matches the identifier at all, it answers with the single Key-not-found
rendering; when such a record exists, the first one supplies the value,
rendered through as_str with non-strings becoming the empty string. -/
theorem c5_get_error_taxonomy (fs : Fs) (c m k : String) (xs : List Json)
    (hfile : fs (containerFile c) = some (FileCt.val (Json.arr xs))) :
    ((∀ j ∈ xs, getMatches j m k = false) →
      handleGet fs c m k = "ERROR: Key not found")
    ∧ (∀ (pre : List Json) (kvs : List (String × Json)) (post : List Json) (w : Json),
        xs = pre ++ Json.obj kvs :: post →
        (∀ j ∈ pre, getMatches j m k = false) →
        idMatches kvs m = true → lookupEntry kvs k = some w →
        handleGet fs c m k = asStrOrEmpty w)
    ∧ (∀ w : Json, (∀ s, w ≠ Json.str s) → asStrOrEmpty w = "") := by
  refine ⟨?_, ?_, ?_⟩
  · intro h
    simp [handleGet, hfile, getInArray_eq_none m k xs h]
  · intro pre kvs post w hxs hpre hid hk
    subst hxs
    simp [handleGet, hfile, getInArray_first_match m k pre kvs post w hpre hid hk]
  · intro w hw
    match w with
    | Json.null | Json.bool _ | Json.num _ | Json.arr _ | Json.obj _ => rfl
    | Json.str s => exact absurd rfl (hw s)

/-- C5 witness: on an empty record array the requested module does not
exist, yet the response is the Key-not-found rendering. -/
theorem c5_get_error_taxonomy_witness :
    fsEmptyArr (containerFile "c") = some (FileCt.val (Json.arr []))
    ∧ handleGet fsEmptyArr "c" "m" "k" = "ERROR: Key not found" :=
  ⟨rfl, (c5_get_error_taxonomy fsEmptyArr "c" "m" "k" [] rfl).1 (by simp)⟩

/-- C5 counterexample: with an existing container file and no record
matching the module, the claim requires a Module-not-found class error,
but the code answers with the Key-not-found rendering it uses for every
missing lookup. -/
theorem c5_get_missing_module_cx :
    handleGet fsEmptyArr "c" "m" "k" = "ERROR: Key not found"
    ∧ ("ERROR: Key not found" : String) ≠ "ERROR: Module not found" :=
  ⟨rfl, by decide⟩

/-- The scan of handle_set updates the first item matching the
identifier, leaving every other item untouched. -/
theorem setInArray_first_match (m k v : String) :
    ∀ (pre : List Json) (kvs : List (String × Json)) (post : List Json),
      (∀ j ∈ pre, recMatches j m = false) →
      idMatches kvs m = true →
      setInArray m k v (pre ++ Json.obj kvs :: post) =
        some (pre ++ Json.obj (insertEntry kvs k (Json.str v)) :: post) := by
  intro pre
  induction pre with
  | nil =>
    intro kvs post _ hid
    simp [setInArray, hid]
  | cons item rest ih =>
    intro kvs post hpre hid
    have hitem := hpre item (by simp)
    have hrest : ∀ j ∈ rest, recMatches j m = false :=
      fun j hj => hpre j (by simp [hj])
    match item with
    | Json.null | Json.bool _ | Json.num _ | Json.str _ | Json.arr _ =>
      simp [setInArray, ih kvs post hrest hid]
    | Json.obj kvs0 =>
      simp [recMatches] at hitem
      simp [setInArray, hitem, ih kvs post hrest hid]

/-- The scan of handle_list_keys answers with the keys of the first item
matching the identifier. -/
theorem keysOfFirst_first_match (m : String) :
    ∀ (pre : List Json) (kvs : List (String × Json)) (post : List Json),
      (∀ j ∈ pre, recMatches j m = false) →
      idMatches kvs m = true →
      keysOfFirst m (pre ++ Json.obj kvs :: post) = some (keysExceptId kvs) := by
  intro pre
  induction pre with
  | nil =>
    intro kvs post _ hid
    simp [keysOfFirst, hid]
  | cons item rest ih =>
    intro kvs post hpre hid
    have hitem := hpre item (by simp)
    have hrest : ∀ j ∈ rest, recMatches j m = false :=
      fun j hj => hpre j (by simp [hj])
    match item with
    | Json.null | Json.bool _ | Json.num _ | Json.str _ | Json.arr _ =>
      simp [keysOfFirst, ih kvs post hrest hid]
    | Json.obj kvs0 =>
      simp [recMatches] at hitem
      simp [keysOfFirst, hitem, ih kvs post hrest hid]

/-- C6: corrected.  Set and ListKeys act on the first record whose
identifier matches and ignore every later record with that identifier;
Get instead answers from the first record that both matches the
identifier and carries the requested key, skipping earlier matching
records that lack the key. -/
theorem c6_first_match_semantics (fs : Fs) (c m k v : String)
    (pre : List Json) (kvs : List (String × Json)) (post : List Json)
    (hfile : fs (containerFile c)
      = some (FileCt.val (Json.arr (pre ++ Json.obj kvs :: post))))
    (hpre : ∀ j ∈ pre, recMatches j m = false)
    (hid : idMatches kvs m = true) :
    handleSet fs c m k v true =
      ("SET " ++ k ++ " " ++ v,
       Fs.write fs (containerFile c)
         (Json.arr (pre ++ Json.obj (insertEntry kvs k (Json.str v)) :: post)))
    ∧ handleListKeys fs c m = String.intercalate ", " (keysExceptId kvs)
    ∧ (∀ (pre2 : List Json) (kvs2 : List (String × Json)) (post2 : List Json) (w : Json),
        pre ++ Json.obj kvs :: post = pre2 ++ Json.obj kvs2 :: post2 →
        (∀ j ∈ pre2, getMatches j m k = false) →
        idMatches kvs2 m = true → lookupEntry kvs2 k = some w →
        handleGet fs c m k = asStrOrEmpty w) := by
  refine ⟨?_, ?_, ?_⟩
  · simp [handleSet, hfile, setInArray_first_match m k v pre kvs post hpre hid]
  · simp [handleListKeys, hfile, keysOfFirst_first_match m pre kvs post hpre hid]
  · intro pre2 kvs2 post2 w hxs hpre2 hid2 hk2
    rw [hxs] at hfile
    simp [handleGet, hfile,
          getInArray_first_match m k pre2 kvs2 post2 w hpre2 hid2 hk2]

/-- C6 witness: a single matching record is updated by Set and listed by
ListKeys. -/
theorem c6_first_match_semantics_witness :
    fsOneRec (containerFile "c")
      = some (FileCt.val (Json.arr ([] ++ Json.obj [("id", Json.str "m")] :: [])))
    ∧ idMatches [("id", Json.str "m")] "m" = true
    ∧ handleListKeys fsOneRec "c" "m" = "" :=
  ⟨rfl, rfl,
    (c6_first_match_semantics fsOneRec "c" "m" "k" "v"
      [] [("id", Json.str "m")] [] rfl (by simp) rfl).2.1⟩

/-- C6 counterexample: with two records of identifier m, the first
lacking key k, Get answers with the value of the second record; the claim
as stated requires the first record to be used and the later one ignored,
which would yield the Key-not-found rendering instead. -/
theorem c6_first_match_cx :
    handleGet fsDup "c" "m" "k" = "v"
    ∧ idMatches [("id", Json.str "m")] "m" = true
    ∧ lookupEntry [("id", Json.str "m")] "k" = none
    ∧ ("v" : String) ≠ "ERROR: Key not found" :=
  ⟨rfl, rfl, rfl, by decide⟩

/-- C3: on a readable, parseable schema document, Init answers the
Container-not-found error exactly when the schema holds no template for
the container; otherwise it instantiates the template with the value,
appends the record to the container array, starting from the empty array
when the container file is absent, unreadable or unparseable, writes the
array back, and confirms with a message naming the container and value. -/
theorem c3_init_semantics (fs : Fs) (c v : String) (treeJson : Json) (xs0 : List Json)
    (htree : fs "tree.json" = some (FileCt.val treeJson))
    (hfile : fs (containerFile c) = some (FileCt.val (Json.arr xs0))
      ∨ ((fs (containerFile c) = none
          ∨ fs (containerFile c) = some FileCt.unreadable
          ∨ fs (containerFile c) = some FileCt.badJson) ∧ xs0 = [])) :
    (treeJson.getKey c = none →
      handleInit fs c v true = ("ERROR: Container not found in tree.json", fs))
    ∧ (∀ t, treeJson.getKey c = some t →
        handleInit fs c v true =
          ("INIT " ++ v ++ " in Container \x27" ++ c ++ "\x27",
           Fs.write fs (containerFile c)
             (Json.arr (xs0 ++ [replacePlaceholder v t])))) := by
  constructor
  · intro hnone
    simp [handleInit, htree, hnone]
  · intro t ht
    rcases hfile with harr | ⟨habs, hnil⟩
    · simp [handleInit, htree, ht, harr]
    · subst hnil
      rcases habs with h0 | h0 | h0 <;> simp [handleInit, htree, ht, h0]

/-- C3 witness: with the schema holding container c and no container file
yet, Init appends the instantiated record to the empty array. -/
theorem c3_init_semantics_witness :
    fsSchemaA "tree.json" = some (FileCt.val schemaA)
    ∧ fsSchemaA (containerFile "c") = none
    ∧ handleInit fsSchemaA "c" "alice" true =
        ("INIT alice in Container \x27c\x27",
         Fs.write fsSchemaA (containerFile "c")
           (Json.arr ([] ++ [replacePlaceholder "alice"
             (Json.obj [("id", Json.str ""), ("email", Json.str "")])]))) :=
  ⟨rfl, rfl,
    (c3_init_semantics fsSchemaA "c" "alice" schemaA []
      rfl (Or.inr ⟨Or.inl rfl, rfl⟩)).2
      (Json.obj [("id", Json.str ""), ("email", Json.str "")]) rfl⟩

/-- The tree.rs success confirmation of Init never carries the upper-case
error marker: its first character is not E. -/
theorem initMsg_not_error (v c : String) :
    beginsUpperError ("INIT " ++ v ++ " in Container \x27" ++ c ++ "\x27") = false := by
  have hd : ("INIT " ++ v ++ " in Container \x27" ++ c ++ "\x27").data
      = 'I' :: ("NIT " ++ v ++ " in Container \x27" ++ c ++ "\x27").data := by
    simp [String.data_append]
  have he : ("ERROR:").data = 'E' :: 'R' :: 'R' :: 'O' :: 'R' :: ':' :: [] := rfl
  rw [beginsUpperError, hd, he]
  simp [beginsWith]

/-- The tree.rs success confirmation of Set never carries the upper-case
error marker: its first character is not E. -/
theorem setMsg_not_error (k v : String) :
    beginsUpperError ("SET " ++ k ++ " " ++ v) = false := by
  have hd : ("SET " ++ k ++ " " ++ v).data
      = 'S' :: ("ET " ++ k ++ " " ++ v).data := by
    simp [String.data_append]
  have he : ("ERROR:").data = 'E' :: 'R' :: 'R' :: 'O' :: 'R' :: ':' :: [] := rfl
  rw [beginsUpperError, hd, he]
  simp [beginsWith]

/-- C9: whenever Init or Set answers an error response, the file-system
state is exactly what it was before the call: every error path returns
before writing, and a failed write is the atomic no-op the spec assumes. -/
theorem c9_error_leaves_state (fs : Fs) (c v m k w : String) (wok : Bool) :
    (beginsUpperError (handleInit fs c v wok).1 = true →
      (handleInit fs c v wok).2 = fs)
    ∧ (beginsUpperError (handleSet fs c m k w wok).1 = true →
      (handleSet fs c m k w wok).2 = fs) := by
  constructor
  · intro herr
    match hts : fs "tree.json" with
    | none => simp [handleInit, hts]
    | some FileCt.unreadable => simp [handleInit, hts]
    | some FileCt.badJson => simp [handleInit, hts]
    | some (FileCt.val treeData) =>
      match hk : treeData.getKey c with
      | none => simp [handleInit, hts, hk]
      | some template =>
        match hwok : wok with
        | false => simp [handleInit, hts, hk]
        | true =>
          rw [handleInit] at herr
          simp [hts, hk] at herr
          rw [initMsg_not_error] at herr
          exact absurd herr (by simp)
  · intro herr
    match hcf : fs (containerFile c) with
    | none => simp [handleSet, hcf]
    | some FileCt.unreadable => simp [handleSet, hcf]
    | some FileCt.badJson => simp [handleSet, hcf]
    | some (FileCt.val current) =>
      match hcur : current with
      | Json.null | Json.bool _ | Json.num _ | Json.str _ | Json.obj _ =>
        simp [handleSet, hcf]
      | Json.arr xs =>
        match hset : setInArray m k w xs with
        | none => simp [handleSet, hcf, hset]
        | some xs2 =>
          match hwok : wok with
          | false => simp [handleSet, hcf, hset]
          | true =>
            rw [handleSet] at herr
            simp [hcf, hset] at herr
            rw [setMsg_not_error] at herr
            exact absurd herr (by simp)

/-- C9 witness: an Init against an absent schema document reports an
error and leaves the state untouched. -/
theorem c9_error_leaves_state_witness :
    beginsUpperError (handleInit fsEmpty "c" "v" true).1 = true
    ∧ (handleInit fsEmpty "c" "v" true).2 = fsEmpty :=
  ⟨rfl, (c9_error_leaves_state fsEmpty "c" "v" "m" "k" "w" true).1 rfl⟩

/-- Reading back the path just written yields the written document. -/
theorem Fs.write_self (fs : Fs) (p : String) (j : Json) :
    Fs.write fs p j p = some (FileCt.val j) := by
  simp [Fs.write]

/-- The entry loop of replace_placeholder pins the id entry to the
replacement string as soon as the input or the accumulator carries one. -/
theorem rpEntries_id (v : String) :
    ∀ (kvs : List (String × Json)) (acc : List (String × Json)),
      (lookupEntry acc "id" = some (Json.str v) ∨ keyMem "id" kvs = true) →
      lookupEntry (rpEntries v acc kvs) "id" = some (Json.str v) := by
  intro kvs
  induction kvs with
  | nil =>
    intro acc h
    rcases h with h | h
    · simpa [rpEntries] using h
    · simp [keyMem, lookupEntry] at h
  | cons e rest ih =>
    intro acc h
    obtain ⟨k0, val⟩ := e
    by_cases h0 : k0 = "id"
    · subst h0
      rw [rpEntries, if_pos rfl]
      exact ih _ (Or.inl (lookupEntry_insertEntry_self acc "id" (Json.str v)))
    · rw [rpEntries, if_neg h0]
      apply ih
      rcases h with h | h
      · exact Or.inl (by
          rw [lookupEntry_insertEntry_ne acc k0 "id" (replacePlaceholder v val)
            (fun hh => h0 hh.symm)]
          exact h)
      · rw [keyMem_cons, if_neg h0] at h
        exact Or.inr h

/-- Inserting a non-identifier key, or re-inserting the matching
identifier itself, preserves the identifier match. -/
theorem idMatches_insertEntry (kvs : List (String × Json)) (m k v : String)
    (hid : idMatches kvs m = true) (hk : k ≠ "id" ∨ v = m) :
    idMatches (insertEntry kvs k (Json.str v)) m = true := by
  by_cases h0 : k = "id"
  · subst h0
    have hv : v = m := by
      rcases hk with h | h
      · exact absurd rfl h
      · exact h
    subst hv
    simp [idMatches, lookupEntry_insertEntry_self]
  · rw [idMatches, lookupEntry_insertEntry_ne kvs k "id" (Json.str v)
      (fun hh => h0 hh.symm)]
    exact hid

/-- The scan of handle_set passes over an item that does not match the
identifier. -/
theorem setInArray_cons_skip (m k v : String) (item : Json) (rest rest2 : List Json)
    (hno : recMatches item m = false) (hs : setInArray m k v rest = some rest2) :
    setInArray m k v (item :: rest) = some (item :: rest2) := by
  match item with
  | Json.null | Json.bool _ | Json.num _ | Json.str _ | Json.arr _ =>
    simp [setInArray, hs]
  | Json.obj kvs =>
    simp [recMatches] at hno
    simp [setInArray, hno, hs]

/-- The scan of handle_get passes over an item that does not match both
the identifier and the key. -/
theorem getInArray_cons_skip (m k : String) (item : Json) (rest : List Json)
    (hno : getMatches item m k = false) :
    getInArray m k (item :: rest) = getInArray m k rest := by
  match item with
  | Json.null | Json.bool _ | Json.num _ | Json.str _ | Json.arr _ =>
    simp [getInArray]
  | Json.obj kvs =>
    by_cases hid : idMatches kvs m
    · simp [getMatches, hid, keyMem] at hno
      simp [getInArray, hid, hno]
    · simp [getInArray, hid]

/-- Set followed by Get on the same module and key: when some record
matches the identifier and the key is not the identifier field (or the
value re-asserts the identifier), the scan of Set succeeds and the scan
of Get finds exactly the stored string. -/
theorem set_get_composition (m k v : String) (hk : k ≠ "id" ∨ v = m) :
    ∀ xs : List Json, (∃ j, j ∈ xs ∧ recMatches j m = true) →
      ∃ xs2, setInArray m k v xs = some xs2
        ∧ getInArray m k xs2 = some (Json.str v) := by
  intro xs
  induction xs with
  | nil =>
    intro h
    obtain ⟨j, hj, _⟩ := h
    simp at hj
  | cons item rest ih =>
    intro h
    by_cases hmt : recMatches item m = true
    · match item, hmt with
      | Json.obj kvs, hmt =>
        have hid : idMatches kvs m = true := by simpa [recMatches] using hmt
        refine ⟨Json.obj (insertEntry kvs k (Json.str v)) :: rest, ?_, ?_⟩
        · simp [setInArray, hid]
        · simp [getInArray, idMatches_insertEntry kvs m k v hid hk,
                lookupEntry_insertEntry_self]
    · have hno : recMatches item m = false := by
        cases hb : recMatches item m
        · rfl
        · exact absurd hb hmt
      obtain ⟨j, hj, hmat⟩ := h
      have hjr : j ∈ rest := by
        rcases List.mem_cons.mp hj with hh | hh
        · subst hh
          exact absurd hmat hmt
        · exact hh
      obtain ⟨rest2, hs, hg⟩ := ih ⟨j, hjr, hmat⟩
      refine ⟨item :: rest2, setInArray_cons_skip m k v item rest rest2 hno hs, ?_⟩
      have hgno : getMatches item m k = false := by
        match item with
        | Json.obj kvs => simp [recMatches] at hno; simp [getMatches, hno]
        | Json.null | Json.bool _ | Json.num _ | Json.str _ | Json.arr _ => rfl
      rw [getInArray_cons_skip m k item rest2 hgno]
      exact hg

/-- C1: corrected.  For a module created by Init from a template that
carries a top-level id field, Set followed by Get on the same key returns
exactly the stored value, provided the key is not the identifier field
itself (or the value re-asserts the identifier): setting the id field
renames the module, after which the Get scan no longer finds it. -/
theorem c1_init_set_get_roundtrip (fs : Fs) (c m k v : String)
    (tm tkvs : List (String × Json)) (w : Json) (xs0 : List Json)
    (htree : fs "tree.json" = some (FileCt.val (Json.obj tm)))
    (ht : lookupEntry tm c = some (Json.obj tkvs))
    (hid : lookupEntry tkvs "id" = some w)
    (hfile : fs (containerFile c) = some (FileCt.val (Json.arr xs0))
      ∨ fs (containerFile c) = none
      ∨ fs (containerFile c) = some FileCt.unreadable
      ∨ fs (containerFile c) = some FileCt.badJson)
    (hk : k ≠ "id" ∨ v = m) :
    (handleInit fs c m true).1 = "INIT " ++ m ++ " in Container \x27" ++ c ++ "\x27"
    ∧ (handleSet (handleInit fs c m true).2 c m k v true).1 = "SET " ++ k ++ " " ++ v
    ∧ handleGet (handleSet (handleInit fs c m true).2 c m k v true).2 c m k = v := by
  have hrecid : lookupEntry (rpEntries m [] tkvs) "id" = some (Json.str m) := by
    apply rpEntries_id m tkvs []
    exact Or.inr (by simp [keyMem, hid])
  have hrec : idMatches (rpEntries m [] tkvs) m = true := by
    simp [idMatches, hrecid]
  obtain ⟨xs1, hinit⟩ :
      ∃ xs1, handleInit fs c m true =
        ("INIT " ++ m ++ " in Container \x27" ++ c ++ "\x27",
         Fs.write fs (containerFile c)
           (Json.arr (xs1 ++ [Json.obj (rpEntries m [] tkvs)]))) := by
    rcases hfile with h0 | h0 | h0 | h0
    · exact ⟨xs0, by simp [handleInit, htree, Json.getKey, ht, h0, replacePlaceholder]⟩
    · exact ⟨[], by simp [handleInit, htree, Json.getKey, ht, h0, replacePlaceholder]⟩
    · exact ⟨[], by simp [handleInit, htree, Json.getKey, ht, h0, replacePlaceholder]⟩
    · exact ⟨[], by simp [handleInit, htree, Json.getKey, ht, h0, replacePlaceholder]⟩
  obtain ⟨xs2, hs, hg⟩ :=
    set_get_composition m k v hk (xs1 ++ [Json.obj (rpEntries m [] tkvs)])
      ⟨Json.obj (rpEntries m [] tkvs), by simp, by simp [recMatches, hrec]⟩
  have hset : handleSet (handleInit fs c m true).2 c m k v true =
      ("SET " ++ k ++ " " ++ v,
       Fs.write (handleInit fs c m true).2 (containerFile c) (Json.arr xs2)) := by
    rw [hinit]
    simp [handleSet, Fs.write_self, hs]
  refine ⟨by rw [hinit], by rw [hset], ?_⟩
  rw [hset]
  simp [handleGet, Fs.write_self, hg, asStrOrEmpty]

/-- C1 witness: Init creates module alice in container c, Set stores a
mail address under a non-identifier key, and Get returns it verbatim. -/
theorem c1_init_set_get_roundtrip_witness :
    fsSchemaA "tree.json" = some (FileCt.val (Json.obj
      [("c", Json.obj [("id", Json.str ""), ("email", Json.str "")])]))
    ∧ (("email" : String) ≠ "id" ∨ ("a@x" : String) = "alice")
    ∧ handleGet
        (handleSet (handleInit fsSchemaA "c" "alice" true).2
          "c" "alice" "email" "a@x" true).2 "c" "alice" "email" = "a@x" :=
  ⟨rfl, Or.inl (by decide),
    (c1_init_set_get_roundtrip fsSchemaA "c" "alice" "email" "a@x"
      [("c", Json.obj [("id", Json.str ""), ("email", Json.str "")])]
      [("id", Json.str ""), ("email", Json.str "")] (Json.str "") []
      rfl rfl rfl (Or.inr (Or.inl rfl)) (Or.inl (by decide))).2.2⟩

/-- C1 counterexample: for the Init-created module m, setting the key id
to x succeeds but renames the record, and the following Get of the same
key answers the Key-not-found rendering instead of x. -/
theorem c1_roundtrip_cx :
    (handleSet (handleInit fsSchemaA "c" "m" true).2 "c" "m" "id" "x" true).1
      = "SET id x"
    ∧ handleGet (handleSet (handleInit fsSchemaA "c" "m" true).2
        "c" "m" "id" "x" true).2 "c" "m" "id" = "ERROR: Key not found"
    ∧ ("ERROR: Key not found" : String) ≠ "x" :=
  ⟨rfl, rfl, by decide⟩

/-- C7: corrected.  The command processor has no LIST command: a request
whose first token uppercases to LIST falls through to the unknown-command
response.  The listings the claim describes are served by the separate
MODULES and KEYS commands, which return the module listing of a container
and the key listing of a record respectively. -/
theorem c7_listing_dispatch (fs : Fs) (wok : Bool) (req : String) :
    (∀ cmd c rest, Api.tokenize req = cmd :: c :: rest →
      Api.upperStr cmd = "MODULES" →
      Api.processRequest fs wok req
        = (Api.renderE (Api.handleModulesCommand fs c), fs))
    ∧ (∀ cmd c m rest, Api.tokenize req = cmd :: c :: m :: rest →
        Api.upperStr cmd = "KEYS" →
        Api.processRequest fs wok req
          = (Api.renderE (Api.handleKeysCommand fs c m), fs))
    ∧ (∀ cmd rest, Api.tokenize req = cmd :: rest →
        Api.upperStr cmd = "LIST" →
        Api.processRequest fs wok req = ("Unknown command: LIST", fs))
    ∧ (∀ c kvs, fs (containerFile c) = some (FileCt.val (Json.obj kvs)) →
        Api.handleModulesCommand fs c
          = Except.ok (String.intercalate ", " (keysOf kvs)))
    ∧ (∀ c m kvs mkvs, fs (containerFile c) = some (FileCt.val (Json.obj kvs)) →
        lookupEntry kvs m = some (Json.obj mkvs) →
        Api.handleKeysCommand fs c m
          = Except.ok (String.intercalate ", " (keysOf mkvs))) := by
  refine ⟨?_, ?_, ?_, ?_, ?_⟩
  · intro cmd c rest htok hup
    simp [Api.processRequest, htok, hup]
  · intro cmd c m rest htok hup
    simp [Api.processRequest, htok, hup]
  · intro cmd rest htok hup
    simp [Api.processRequest, htok, hup]
  · intro c kvs hfile
    simp [Api.handleModulesCommand, hfile, keysOf]
  · intro c m kvs mkvs hfile hm
    simp [Api.handleKeysCommand, hfile, hm, keysOf]

/-- C7 witness: a MODULES request lists the container, a KEYS request
lists a record, and a LIST request is unknown. -/
theorem c7_listing_dispatch_witness :
    Api.tokenize "MODULES users" = ["MODULES", "users"]
    ∧ Api.upperStr "MODULES" = "MODULES"
    ∧ Api.processRequest fsUsers true "MODULES users"
        = (Api.renderE (Api.handleModulesCommand fsUsers "users"), fsUsers) :=
  ⟨rfl, rfl,
    (c7_listing_dispatch fsUsers true "MODULES users").1
      "MODULES" "users" [] rfl rfl⟩

/-- C7 counterexample: the claim reads LIST with a container as a
dispatched listing request, but the processor answers the unknown-command
response rather than the module listing alice. -/
theorem c7_list_unknown_cx :
    Api.processRequest fsUsers true "LIST users" = ("Unknown command: LIST", fsUsers)
    ∧ Api.handleModulesCommand fsUsers "users" = Except.ok "alice"
    ∧ ("Unknown command: LIST" : String) ≠ "alice" :=
  ⟨rfl, rfl, by decide⟩

/-- C8: corrected.  Empty requests, arity mismatches and failed commands
all answer single-line strings behind the Error: prefix, but an unknown
command answers Unknown command: followed by the uppercased token, which
carries neither the ERROR: nor the Error: prefix the claim requires. -/
theorem c8_error_responses (fs : Fs) (wok : Bool) (req : String) :
    (Api.tokenize req = [] →
      (Api.processRequest fs wok req).1 = "Error: Empty command")
    ∧ (∀ cmd rest, Api.tokenize req = cmd :: rest →
        knownUpper (Api.upperStr cmd) = false →
        (Api.processRequest fs wok req).1 = "Unknown command: " ++ Api.upperStr cmd
        ∧ beginsError ("Unknown command: " ++ Api.upperStr cmd) = false)
    ∧ (∀ cmd rest, Api.tokenize req = cmd :: rest →
        Api.upperStr cmd = "INIT" → rest.length ≤ 1 →
        (Api.processRequest fs wok req).1 = "Error: INIT requires container and value")
    ∧ (∀ cmd rest, Api.tokenize req = cmd :: rest →
        Api.upperStr cmd = "SET" → rest.length ≤ 3 →
        (Api.processRequest fs wok req).1
          = "Error: SET requires container, module, key, and value")
    ∧ (∀ cmd rest, Api.tokenize req = cmd :: rest →
        Api.upperStr cmd = "GET" → rest.length ≤ 2 →
        (Api.processRequest fs wok req).1 = "Error: GET requires container, module, and key")
    ∧ (∀ cmd, Api.tokenize req = [cmd] →
        Api.upperStr cmd = "MODULES" →
        (Api.processRequest fs wok req).1 = "Error: MODULES requires container")
    ∧ (∀ cmd rest, Api.tokenize req = cmd :: rest →
        Api.upperStr cmd = "KEYS" → rest.length ≤ 1 →
        (Api.processRequest fs wok req).1 = "Error: KEYS requires container and module")
    ∧ (∀ cmd a b rest e fs2, Api.tokenize req = cmd :: a :: b :: rest →
        Api.upperStr cmd = "INIT" →
        Api.handleInitCommand fs a b wok = (Except.error e, fs2) →
        (Api.processRequest fs wok req).1 = "Error: " ++ e)
    ∧ (∀ cmd a b d g rest e fs2, Api.tokenize req = cmd :: a :: b :: d :: g :: rest →
        Api.upperStr cmd = "SET" →
        Api.handleSetCommand fs a b d g wok = (Except.error e, fs2) →
        (Api.processRequest fs wok req).1 = "Error: " ++ e)
    ∧ (∀ cmd a b d rest e, Api.tokenize req = cmd :: a :: b :: d :: rest →
        Api.upperStr cmd = "GET" →
        Api.handleGetCommand fs a b d = Except.error e →
        (Api.processRequest fs wok req).1 = "Error: " ++ e)
    ∧ (∀ cmd rest e, Api.tokenize req = cmd :: rest →
        Api.upperStr cmd = "CONTAINERS" →
        Api.handleContainersCommand fs = Except.error e →
        (Api.processRequest fs wok req).1 = "Error: " ++ e)
    ∧ (∀ cmd a rest e, Api.tokenize req = cmd :: a :: rest →
        Api.upperStr cmd = "MODULES" →
        Api.handleModulesCommand fs a = Except.error e →
        (Api.processRequest fs wok req).1 = "Error: " ++ e)
    ∧ (∀ cmd a b rest e, Api.tokenize req = cmd :: a :: b :: rest →
        Api.upperStr cmd = "KEYS" →
        Api.handleKeysCommand fs a b = Except.error e →
        (Api.processRequest fs wok req).1 = "Error: " ++ e)
    ∧ (∀ e, beginsError ("Error: " ++ e) = true) := by
  refine ⟨?_, ?_, ?_, ?_, ?_, ?_, ?_, ?_, ?_, ?_, ?_, ?_, ?_, ?_⟩
  · intro htok
    simp [Api.processRequest, htok]
  · intro cmd rest htok hunk
    have h1 : ¬(Api.upperStr cmd = "INIT") := by
      intro hh; rw [knownUpper, hh] at hunk; simp at hunk
    have h2 : ¬(Api.upperStr cmd = "SET") := by
      intro hh; rw [knownUpper, hh] at hunk; simp at hunk
    have h3 : ¬(Api.upperStr cmd = "GET") := by
      intro hh; rw [knownUpper, hh] at hunk; simp at hunk
    have h4 : ¬(Api.upperStr cmd = "CONTAINERS") := by
      intro hh; rw [knownUpper, hh] at hunk; simp at hunk
    have h5 : ¬(Api.upperStr cmd = "MODULES") := by
      intro hh; rw [knownUpper, hh] at hunk; simp at hunk
    have h6 : ¬(Api.upperStr cmd = "KEYS") := by
      intro hh; rw [knownUpper, hh] at hunk; simp at hunk
    constructor
    · simp [Api.processRequest, htok, h1, h2, h3, h4, h5, h6]
    · have hd : ("Unknown command: " ++ Api.upperStr cmd).data
          = 'U' :: ("nknown command: " ++ Api.upperStr cmd).data := by
        simp [String.data_append]
      have he1 : ("ERROR:").data = 'E' :: 'R' :: 'R' :: 'O' :: 'R' :: ':' :: [] := rfl
      have he2 : ("Error:").data = 'E' :: 'r' :: 'r' :: 'o' :: 'r' :: ':' :: [] := rfl
      rw [beginsError, hd, he1, he2]
      simp [beginsWith]
  · intro cmd rest htok hup hlen
    match rest, hlen with
    | [], _ => simp [Api.processRequest, htok, hup]
    | [a], _ => simp [Api.processRequest, htok, hup]
  · intro cmd rest htok hup hlen
    match rest, hlen with
    | [], _ => simp [Api.processRequest, htok, hup]
    | [a], _ => simp [Api.processRequest, htok, hup]
    | [a, b], _ => simp [Api.processRequest, htok, hup]
    | [a, b, d], _ => simp [Api.processRequest, htok, hup]
  · intro cmd rest htok hup hlen
    match rest, hlen with
    | [], _ => simp [Api.processRequest, htok, hup]
    | [a], _ => simp [Api.processRequest, htok, hup]
    | [a, b], _ => simp [Api.processRequest, htok, hup]
  · intro cmd htok hup
    simp [Api.processRequest, htok, hup]
  · intro cmd rest htok hup hlen
    match rest, hlen with
    | [], _ => simp [Api.processRequest, htok, hup]
    | [a], _ => simp [Api.processRequest, htok, hup]
  · intro cmd a b rest e fs2 htok hup hcall
    simp [Api.processRequest, htok, hup, hcall, Api.renderE]
  · intro cmd a b d g rest e fs2 htok hup hcall
    simp [Api.processRequest, htok, hup, hcall, Api.renderE]
  · intro cmd a b d rest e htok hup hcall
    simp [Api.processRequest, htok, hup, hcall, Api.renderE]
  · intro cmd rest e htok hup hcall
    simp [Api.processRequest, htok, hup, hcall, Api.renderE]
  · intro cmd a rest e htok hup hcall
    simp [Api.processRequest, htok, hup, hcall, Api.renderE]
  · intro cmd a b rest e htok hup hcall
    simp [Api.processRequest, htok, hup, hcall, Api.renderE]
  · intro e
    have hd : ("Error: " ++ e).data = 'E' :: 'r' :: 'r' :: 'o' :: 'r' :: ':' :: ' ' :: e.data := by
      simp [String.data_append]
    have he2 : ("Error:").data = 'E' :: 'r' :: 'r' :: 'o' :: 'r' :: ':' :: [] := rfl
    rw [beginsError, hd, he2]
    simp [beginsWith]

/-- C8 witness: an INIT request missing its value argument answers the
uniform arity error string. -/
theorem c8_error_responses_witness :
    Api.tokenize "INIT c" = ["INIT", "c"]
    ∧ Api.upperStr "INIT" = "INIT"
    ∧ (Api.processRequest fsEmpty true "INIT c").1
        = "Error: INIT requires container and value" :=
  ⟨rfl, rfl,
    (c8_error_responses fsEmpty true "INIT c").2.2.1 "INIT" ["c"] rfl rfl
      (by decide)⟩

/-- C8 counterexample: an unknown command answers a response that starts
with Unknown command: and carries neither error prefix the claim names. -/
theorem c8_unknown_prefix_cx :
    (Api.processRequest fsEmpty true "foo").1 = "Unknown command: FOO"
    ∧ beginsError "Unknown command: FOO" = false :=
  ⟨rfl, rfl⟩

/-- The key projection distributes over append. -/
theorem keysOf_append (a b : List (String × Json)) :
    keysOf (a ++ b) = keysOf a ++ keysOf b := by
  simp [keysOf]

/-- On an object whose keys, together with those already inserted, are
pairwise distinct, the sequential-insert loop of replace_placeholder is
the plain entry map after the accumulator. -/
theorem rpEntries_eq_map (v : String) :
    ∀ (kvs acc : List (String × Json)),
      (keysOf acc ++ keysOf kvs).Nodup →
      rpEntries v acc kvs = acc ++ rpMapEntries v kvs := by
  intro kvs
  induction kvs with
  | nil =>
    intro acc h
    simp [rpEntries, rpMapEntries]
  | cons e rest ih =>
    intro acc h
    obtain ⟨k, val⟩ := e
    rw [keysOf_cons] at h
    have hknotin : k ∉ keysOf acc := by
      rw [List.nodup_append] at h
      exact fun hm => h.2.2 hm (by simp)
    have hfresh : keyMem k acc = false := by
      cases hb : keyMem k acc
      · rfl
      · exact absurd ((keyMem_iff_mem_keysOf k acc).mp hb) hknotin
    have hnext : ∀ X : Json,
        (keysOf (acc ++ [(k, X)]) ++ keysOf rest).Nodup := by
      intro X
      rw [keysOf_append, List.append_assoc]
      simpa [keysOf] using h
    by_cases hkid : k = "id"
    · rw [show rpEntries v acc ((k, val) :: rest)
          = rpEntries v (insertEntry acc k (Json.str v)) rest by
        simp [rpEntries, hkid]]
      rw [insertEntry_fresh acc k (Json.str v) hfresh]
      rw [ih (acc ++ [(k, Json.str v)]) (hnext (Json.str v))]
      simp [rpMapEntries, hkid]
    · rw [show rpEntries v acc ((k, val) :: rest)
          = rpEntries v (insertEntry acc k (replacePlaceholder v val)) rest by
        simp [rpEntries, hkid]]
      rw [insertEntry_fresh acc k (replacePlaceholder v val) hfresh]
      rw [ih (acc ++ [(k, replacePlaceholder v val)])
        (hnext (replacePlaceholder v val))]
      simp [rpMapEntries, hkid]

/-- On an object whose renamed keys, together with those already
inserted, are pairwise distinct, the sequential-insert loop of
process_template is the plain renamed entry map after the accumulator. -/
theorem ptEntries_eq_map (v : String) :
    ∀ (kvs acc : List (String × Json)),
      (keysOf acc
        ++ (keysOf kvs).map (fun k => if k = "module" then v else k)).Nodup →
      Api.ptEntries v acc kvs = acc ++ ptMapEntries v kvs := by
  intro kvs
  induction kvs with
  | nil =>
    intro acc h
    simp [Api.ptEntries, ptMapEntries]
  | cons e rest ih =>
    intro acc h
    obtain ⟨k, val⟩ := e
    rw [keysOf_cons, List.map_cons] at h
    have hknotin : (if k = "module" then v else k) ∉ keysOf acc := by
      rw [List.nodup_append] at h
      exact fun hm => h.2.2 hm (by simp)
    have hfresh : keyMem (if k = "module" then v else k) acc = false := by
      cases hb : keyMem (if k = "module" then v else k) acc
      · rfl
      · exact absurd ((keyMem_iff_mem_keysOf _ acc).mp hb) hknotin
    have hnext :
        (keysOf (acc ++ [((if k = "module" then v else k), Api.processTemplate v val)])
          ++ (keysOf rest).map (fun k => if k = "module" then v else k)).Nodup := by
      rw [keysOf_append, List.append_assoc]
      simpa [keysOf] using h
    by_cases hkm : k = "module"
    · rw [show Api.ptEntries v acc ((k, val) :: rest)
          = Api.ptEntries v (insertEntry acc v (Api.processTemplate v val)) rest by
        simp [Api.ptEntries, hkm]]
      have hfresh2 : keyMem v acc = false := by simpa [hkm] using hfresh
      rw [insertEntry_fresh acc v (Api.processTemplate v val) hfresh2]
      have hnext2 := hnext
      rw [if_pos hkm] at hnext2
      rw [ih (acc ++ [(v, Api.processTemplate v val)]) hnext2]
      simp [ptMapEntries, hkm]
    · rw [show Api.ptEntries v acc ((k, val) :: rest)
          = Api.ptEntries v (insertEntry acc k (Api.processTemplate v val)) rest by
        simp [Api.ptEntries, hkm]]
      have hfresh2 : keyMem k acc = false := by simpa [hkm] using hfresh
      rw [insertEntry_fresh acc k (Api.processTemplate v val) hfresh2]
      have hnext2 := hnext
      rw [if_neg hkm] at hnext2
      rw [ih (acc ++ [(k, Api.processTemplate v val)]) hnext2]
      simp [ptMapEntries, hkm]

/-- Renaming the module marker to a fresh replacement keeps a duplicate
free key list duplicate free. -/
theorem nodup_renamed (v : String) :
    ∀ ks : List String, ks.Nodup → ("module" ∈ ks → v ∈ ks → False) →
      (ks.map (fun k => if k = "module" then v else k)).Nodup := by
  intro ks
  induction ks with
  | nil =>
    intro _ _
    simp
  | cons k rest ih =>
    intro hnd hcol
    rw [List.map_cons, List.nodup_cons]
    rw [List.nodup_cons] at hnd
    obtain ⟨hknotin, hndr⟩ := hnd
    refine ⟨?_, ih hndr (fun hm hv2 => hcol (by simp [hm]) (by simp [hv2]))⟩
    intro hmem
    obtain ⟨k2, hk2mem, hk2eq⟩ := List.mem_map.mp hmem
    by_cases hk : k = "module"
    · by_cases hk2 : k2 = "module"
      · rw [hk] at hknotin
        rw [hk2] at hk2mem
        exact hknotin hk2mem
      · have hk2v : k2 = v := by simpa [hk2, hk] using hk2eq
        exact hcol (by simp [hk]) (by
          rw [← hk2v]
          exact List.mem_cons_of_mem k hk2mem)
    · by_cases hk2 : k2 = "module"
      · have hvk : v = k := by simpa [hk2, hk] using hk2eq
        refine hcol ?_ ?_
        · rw [← hk2]
          exact List.mem_cons_of_mem k hk2mem
        · rw [hvk]
          exact List.mem_cons_self k rest
      · have : k2 = k := by simpa [hk2, hk] using hk2eq
        exact hknotin (this ▸ hk2mem)

mutual
/-- Substitution leaves the marker-erased part of a well-formed template
unchanged. -/
theorem stripId_rp (v : String) :
    (j : Json) → wfJson j = true →
      stripId (replacePlaceholder v j) = stripId j
  | .null, _ => rfl
  | .bool _, _ => rfl
  | .num _, _ => rfl
  | .str _, _ => rfl
  | .arr xs, h => by
      have hl : wfList xs = true := by simpa [wfJson] using h
      simp [replacePlaceholder, stripId]
      exact stripId_rpList v xs hl
  | .obj kvs, h => by
      have hh : nodupKeysB kvs = true ∧ wfEntries kvs = true := by
        simpa [wfJson, Bool.and_eq_true] using h
      have hmap := rpEntries_eq_map v kvs []
        (by simpa [keysOf] using nodup_keysOf_of_nodupKeysB kvs hh.1)
      simp [replacePlaceholder, stripId, hmap]
      exact stripId_rpMapEntries v kvs hh.2

/-- stripId_rp over the mapped entries of an object. -/
theorem stripId_rpMapEntries (v : String) :
    (kvs : List (String × Json)) → wfEntries kvs = true →
      stripIdEntries (rpMapEntries v kvs) = stripIdEntries kvs
  | [], _ => rfl
  | (k, val) :: rest, h => by
      have hh : wfJson val = true ∧ wfEntries rest = true := by
        simpa [wfEntries, Bool.and_eq_true] using h
      by_cases hkid : k = "id"
      · simp [rpMapEntries, stripIdEntries, hkid]
        exact stripId_rpMapEntries v rest hh.2
      · simp [rpMapEntries, stripIdEntries, hkid]
        exact ⟨stripId_rp v val hh.1, stripId_rpMapEntries v rest hh.2⟩

/-- stripId_rp over the items of an array. -/
theorem stripId_rpList (v : String) :
    (xs : List Json) → wfList xs = true →
      stripIdList (rpList v xs) = stripIdList xs
  | [], _ => rfl
  | x :: xs, h => by
      have hh : wfJson x = true ∧ wfList xs = true := by
        simpa [wfList, Bool.and_eq_true] using h
      simp [rpList, stripIdList]
      exact ⟨stripId_rp v x hh.1, stripId_rpList v xs hh.2⟩
end

mutual
/-- After substitution on a well-formed template, every marker entry of
the result holds exactly the replacement string. -/
theorem idsAll_rp (v : String) :
    (j : Json) → wfJson j = true →
      idsAll v (replacePlaceholder v j) = true
  | .null, _ => rfl
  | .bool _, _ => rfl
  | .num _, _ => rfl
  | .str _, _ => rfl
  | .arr xs, h => by
      have hl : wfList xs = true := by simpa [wfJson] using h
      simp [replacePlaceholder, idsAll]
      exact idsAll_rpMapList v xs hl
  | .obj kvs, h => by
      have hh : nodupKeysB kvs = true ∧ wfEntries kvs = true := by
        simpa [wfJson, Bool.and_eq_true] using h
      have hmap := rpEntries_eq_map v kvs []
        (by simpa [keysOf] using nodup_keysOf_of_nodupKeysB kvs hh.1)
      simp [replacePlaceholder, idsAll, hmap]
      exact idsAll_rpMapEntries v kvs hh.2

/-- idsAll_rp over the mapped entries of an object. -/
theorem idsAll_rpMapEntries (v : String) :
    (kvs : List (String × Json)) → wfEntries kvs = true →
      idsAllEntries v (rpMapEntries v kvs) = true
  | [], _ => rfl
  | (k, val) :: rest, h => by
      have hh : wfJson val = true ∧ wfEntries rest = true := by
        simpa [wfEntries, Bool.and_eq_true] using h
      by_cases hkid : k = "id"
      · simp [rpMapEntries, idsAllEntries, hkid]
        exact idsAll_rpMapEntries v rest hh.2
      · simp [rpMapEntries, idsAllEntries, hkid]
        exact ⟨idsAll_rp v val hh.1, idsAll_rpMapEntries v rest hh.2⟩

/-- idsAll_rp over the items of an array. -/
theorem idsAll_rpMapList (v : String) :
    (xs : List Json) → wfList xs = true →
      idsAllList v (rpList v xs) = true
  | [], _ => rfl
  | x :: xs, h => by
      have hh : wfJson x = true ∧ wfList xs = true := by
        simpa [wfList, Bool.and_eq_true] using h
      simp [rpList, idsAllList]
      exact ⟨idsAll_rp v x hh.1, idsAll_rpMapList v xs hh.2⟩
end

mutual
/-- A well-formed template without the marker is returned unchanged. -/
theorem noId_rp (v : String) :
    (j : Json) → wfJson j = true → hasIdKey j = false →
      replacePlaceholder v j = j
  | .null, _, _ => rfl
  | .bool _, _, _ => rfl
  | .num _, _, _ => rfl
  | .str _, _, _ => rfl
  | .arr xs, h, hno => by
      have hl : wfList xs = true := by simpa [wfJson] using h
      have hnol : hasIdKeyList xs = false := by simpa [hasIdKey] using hno
      simp [replacePlaceholder]
      exact noId_rpList v xs hl hnol
  | .obj kvs, h, hno => by
      have hh : nodupKeysB kvs = true ∧ wfEntries kvs = true := by
        simpa [wfJson, Bool.and_eq_true] using h
      have hnoe : hasIdKeyEntries kvs = false := by simpa [hasIdKey] using hno
      have hmap := rpEntries_eq_map v kvs []
        (by simpa [keysOf] using nodup_keysOf_of_nodupKeysB kvs hh.1)
      simp [replacePlaceholder, hmap]
      exact noId_rpMapEntries v kvs hh.2 hnoe

/-- noId_rp over the mapped entries of an object. -/
theorem noId_rpMapEntries (v : String) :
    (kvs : List (String × Json)) → wfEntries kvs = true →
      hasIdKeyEntries kvs = false → rpMapEntries v kvs = kvs
  | [], _, _ => rfl
  | (k, val) :: rest, h, hno => by
      have hh : wfJson val = true ∧ wfEntries rest = true := by
        simpa [wfEntries, Bool.and_eq_true] using h
      have hno3 : (¬(k = "id") ∧ hasIdKey val = false) ∧ hasIdKeyEntries rest = false := by
        simpa [hasIdKeyEntries] using hno
      simp [rpMapEntries, hno3.1.1]
      exact ⟨noId_rp v val hh.1 hno3.1.2, noId_rpMapEntries v rest hh.2 hno3.2⟩

/-- noId_rp over the items of an array. -/
theorem noId_rpList (v : String) :
    (xs : List Json) → wfList xs = true → hasIdKeyList xs = false →
      rpList v xs = xs
  | [], _, _ => rfl
  | x :: xs, h, hno => by
      have hh : wfJson x = true ∧ wfList xs = true := by
        simpa [wfList, Bool.and_eq_true] using h
      have hno2 : hasIdKey x = false ∧ hasIdKeyList xs = false := by
        simpa [hasIdKeyList] using hno
      simp [rpList]
      exact ⟨noId_rp v x hh.1 hno2.1, noId_rpList v xs hh.2 hno2.2⟩
end

mutual
/-- On a well-formed, collision-free template, process_template is the
plain recursive renaming of the module marker key. -/
theorem pt_rename (v : String) (hv : v ≠ "module") :
    (j : Json) → wfJson j = true → collides v j = false →
      Api.processTemplate v j = renameKey v j
  | .null, _, _ => rfl
  | .bool _, _, _ => rfl
  | .num _, _, _ => rfl
  | .str _, _, _ => rfl
  | .arr xs, h, hc => by
      have hl : wfList xs = true := by simpa [wfJson] using h
      have hcl : collidesList v xs = false := by simpa [collides] using hc
      simp [Api.processTemplate, renameKey]
      exact pt_rename_list v hv xs hl hcl
  | .obj kvs, h, hc => by
      have hh : nodupKeysB kvs = true ∧ wfEntries kvs = true := by
        simpa [wfJson, Bool.and_eq_true] using h
      have hcc : (keyMem "module" kvs = true → keyMem v kvs = false)
          ∧ collidesEntries v kvs = false := by
        have := hc
        simp [collides, Bool.or_eq_false_iff, Bool.and_eq_false_iff] at this
        exact this
      have hcol : "module" ∈ keysOf kvs → v ∈ keysOf kvs → False := by
        intro hm hvm
        have hb := hcc.1 ((keyMem_iff_mem_keysOf "module" kvs).mpr hm)
        rw [(keyMem_iff_mem_keysOf v kvs).mpr hvm] at hb
        cases hb
      have hmap := ptEntries_eq_map v kvs []
        (by
          simpa [keysOf] using nodup_renamed v (keysOf kvs)
            (nodup_keysOf_of_nodupKeysB kvs hh.1) hcol)
      simp [Api.processTemplate, renameKey, hmap]
      exact pt_rename_entries v hv kvs hh.2 hcc.2

/-- pt_rename over the mapped entries of an object. -/
theorem pt_rename_entries (v : String) (hv : v ≠ "module") :
    (kvs : List (String × Json)) → wfEntries kvs = true →
      collidesEntries v kvs = false →
      ptMapEntries v kvs = renameKeyEntries v kvs
  | [], _, _ => rfl
  | (k, val) :: rest, h, hc => by
      have hh : wfJson val = true ∧ wfEntries rest = true := by
        simpa [wfEntries, Bool.and_eq_true] using h
      have hc2 : collides v val = false ∧ collidesEntries v rest = false := by
        simpa [collidesEntries] using hc
      simp [ptMapEntries, renameKeyEntries]
      exact ⟨pt_rename v hv val hh.1 hc2.1, pt_rename_entries v hv rest hh.2 hc2.2⟩

/-- pt_rename over the items of an array. -/
theorem pt_rename_list (v : String) (hv : v ≠ "module") :
    (xs : List Json) → wfList xs = true → collidesList v xs = false →
      Api.ptList v xs = renameKeyList v xs
  | [], _, _ => rfl
  | x :: xs, h, hc => by
      have hh : wfJson x = true ∧ wfList xs = true := by
        simpa [wfList, Bool.and_eq_true] using h
      have hc2 : collides v x = false ∧ collidesList v xs = false := by
        simpa [collidesList] using hc
      simp [Api.ptList, renameKeyList]
      exact ⟨pt_rename v hv x hh.1 hc2.1, pt_rename_list v hv xs hh.2 hc2.2⟩
end

mutual
/-- Renaming a key touches no scalar leaf. -/
theorem scalars_rename (v : String) :
    (j : Json) → scalarsOf (renameKey v j) = scalarsOf j
  | .null => rfl
  | .bool _ => rfl
  | .num _ => rfl
  | .str _ => rfl
  | .arr xs => by
      simp [renameKey, scalarsOf]
      exact scalars_rename_list v xs
  | .obj kvs => by
      simp [renameKey, scalarsOf]
      exact scalars_rename_entries v kvs

/-- scalars_rename over the entries of an object. -/
theorem scalars_rename_entries (v : String) :
    (kvs : List (String × Json)) →
      scalarsOfEntries (renameKeyEntries v kvs) = scalarsOfEntries kvs
  | [] => rfl
  | (k, val) :: rest => by
      simp [renameKeyEntries, scalarsOfEntries]
      rw [scalars_rename v val, scalars_rename_entries v rest]

/-- scalars_rename over the items of an array. -/
theorem scalars_rename_list (v : String) :
    (xs : List Json) → scalarsOfList (renameKeyList v xs) = scalarsOfList xs
  | [] => rfl
  | x :: xs => by
      simp [renameKeyList, scalarsOfList]
      rw [scalars_rename v x, scalars_rename_list v xs]
end

mutual
/-- After renaming to a replacement other than the marker itself, no
module marker key remains anywhere in the document. -/
theorem noModule_rename (v : String) (hv : ¬(v = "module")) :
    (j : Json) → hasModuleKey (renameKey v j) = false
  | .null => rfl
  | .bool _ => rfl
  | .num _ => rfl
  | .str _ => rfl
  | .arr xs => by
      simp [renameKey, hasModuleKey]
      exact noModule_rename_list v hv xs
  | .obj kvs => by
      simp [renameKey, hasModuleKey]
      exact noModule_rename_entries v hv kvs

/-- noModule_rename over the entries of an object. -/
theorem noModule_rename_entries (v : String) (hv : ¬(v = "module")) :
    (kvs : List (String × Json)) →
      hasModuleKeyEntries (renameKeyEntries v kvs) = false
  | [] => rfl
  | (k, val) :: rest => by
      by_cases hk : k = "module"
      · simp [renameKeyEntries, hasModuleKeyEntries, hk, hv]
        exact ⟨noModule_rename v hv val, noModule_rename_entries v hv rest⟩
      · simp [renameKeyEntries, hasModuleKeyEntries, hk]
        exact ⟨noModule_rename v hv val, noModule_rename_entries v hv rest⟩

/-- noModule_rename over the items of an array. -/
theorem noModule_rename_list (v : String) (hv : ¬(v = "module")) :
    (xs : List Json) → hasModuleKeyList (renameKeyList v xs) = false
  | [] => rfl
  | x :: xs => by
      simp [renameKeyList, hasModuleKeyList]
      exact ⟨noModule_rename v hv x, noModule_rename_list v hv xs⟩
end

mutual
/-- A document without the module marker is unchanged by the renaming. -/
theorem noModule_rename_id (v : String) :
    (j : Json) → hasModuleKey j = false → renameKey v j = j
  | .null, _ => rfl
  | .bool _, _ => rfl
  | .num _, _ => rfl
  | .str _, _ => rfl
  | .arr xs, h => by
      have hl : hasModuleKeyList xs = false := by simpa [hasModuleKey] using h
      simp [renameKey]
      exact noModule_rename_id_list v xs hl
  | .obj kvs, h => by
      have he : hasModuleKeyEntries kvs = false := by simpa [hasModuleKey] using h
      simp [renameKey]
      exact noModule_rename_id_entries v kvs he

/-- noModule_rename_id over the entries of an object. -/
theorem noModule_rename_id_entries (v : String) :
    (kvs : List (String × Json)) → hasModuleKeyEntries kvs = false →
      renameKeyEntries v kvs = kvs
  | [], _ => rfl
  | (k, val) :: rest, h => by
      have h3 : (¬(k = "module") ∧ hasModuleKey val = false)
          ∧ hasModuleKeyEntries rest = false := by
        simpa [hasModuleKeyEntries] using h
      simp [renameKeyEntries, h3.1.1]
      exact ⟨noModule_rename_id v val h3.1.2, noModule_rename_id_entries v rest h3.2⟩

/-- noModule_rename_id over the items of an array. -/
theorem noModule_rename_id_list (v : String) :
    (xs : List Json) → hasModuleKeyList xs = false → renameKeyList v xs = xs
  | [], _ => rfl
  | x :: xs, h => by
      have h2 : hasModuleKey x = false ∧ hasModuleKeyList xs = false := by
        simpa [hasModuleKeyList] using h
      simp [renameKeyList]
      exact ⟨noModule_rename_id v x h2.1, noModule_rename_id_list v xs h2.2⟩
end

/-- C2: corrected.  On a well-formed template, the value-substitution
engine (replace_placeholder) leaves the marker-erased template unchanged,
pins every marker entry of the result to the replacement string, and is
the identity when no marker occurs; the key-renaming engine
(process_template) preserves every scalar, is the identity when its
marker is absent, and eliminates every marker key, but the last three
hold only when the replacement is not the marker itself and does not
collide with an existing sibling key, since colliding inserts silently
overwrite an entry. -/
theorem c2_template_instantiation (t : Json) (v : String)
    (hwf : wfJson t = true) :
    stripId (replacePlaceholder v t) = stripId t
    ∧ idsAll v (replacePlaceholder v t) = true
    ∧ (hasIdKey t = false → replacePlaceholder v t = t)
    ∧ (v ≠ "module" → collides v t = false →
        scalarsOf (Api.processTemplate v t) = scalarsOf t
        ∧ (hasModuleKey t = false → Api.processTemplate v t = t)
        ∧ hasModuleKey (Api.processTemplate v t) = false) := by
  refine ⟨stripId_rp v t hwf, idsAll_rp v t hwf,
    fun h => noId_rp v t hwf h, ?_⟩
  intro hv hc
  refine ⟨?_, ?_, ?_⟩
  · rw [pt_rename v hv t hwf hc]
    exact scalars_rename v t
  · intro h
    rw [pt_rename v hv t hwf hc]
    exact noModule_rename_id v t h
  · rw [pt_rename v hv t hwf hc]
    exact noModule_rename v hv t

/-- C2 witness: a nested template with markers at depth one and two is
instantiated with alice while the rest stays unchanged. -/
theorem c2_template_instantiation_witness :
    wfJson (Json.obj [("id", Json.str ""), ("email", Json.str ""),
      ("sub", Json.arr [Json.obj [("id", Json.str "")]])]) = true
    ∧ stripId (replacePlaceholder "alice"
        (Json.obj [("id", Json.str ""), ("email", Json.str ""),
          ("sub", Json.arr [Json.obj [("id", Json.str "")]])]))
      = stripId (Json.obj [("id", Json.str ""), ("email", Json.str ""),
          ("sub", Json.arr [Json.obj [("id", Json.str "")]])])
    ∧ scalarsOf (Api.processTemplate "alice"
        (Json.obj [("id", Json.str ""), ("email", Json.str ""),
          ("sub", Json.arr [Json.obj [("id", Json.str "")]])]))
      = scalarsOf (Json.obj [("id", Json.str ""), ("email", Json.str ""),
          ("sub", Json.arr [Json.obj [("id", Json.str "")]])]) :=
  ⟨rfl,
    (c2_template_instantiation
      (Json.obj [("id", Json.str ""), ("email", Json.str ""),
        ("sub", Json.arr [Json.obj [("id", Json.str "")]])])
      "alice" rfl).1,
    ((c2_template_instantiation
      (Json.obj [("id", Json.str ""), ("email", Json.str ""),
        ("sub", Json.arr [Json.obj [("id", Json.str "")]])])
      "alice" rfl).2.2.2 (by decide) rfl).1⟩

/-- C2 counterexample: when the replacement value collides with a sibling
key of the marker, the sequential insert of process_template overwrites
that sibling, so a scalar of the template is not left unchanged: the
claim fails as stated for the key-renaming engine. -/
theorem c2_collision_cx :
    Api.processTemplate "a" (Json.obj [("a", Json.bool true), ("module", Json.null)])
      = Json.obj [("a", Json.null)]
    ∧ scalarsOf (Json.obj [("a", Json.bool true), ("module", Json.null)])
      = [Json.bool true, Json.null]
    ∧ scalarsOf (Json.obj [("a", Json.null)]) = [Json.null] :=
  ⟨rfl, rfl, rfl⟩
